import Mathlib

/-!
Verification of the endpoint-synthesis pipeline of an external-dns fork
(Contour HTTPProxy / IngressRoute, Ambassador Host, Kong TCPIngress and
Gloo Proxy sources).

The Go sources under `source/` are embedded shallowly:

* Go strings are Lean `String`s; the Go standard-library split/trim
  operations used by the sources are re-implemented over `List Char`
  (`splitOnChar`, `splitN2`, ...) so that every definition is executable
  and kernel-reducible.
* Kubernetes informer/client lookups are embedded as explicit function
  or `Option` fields of each source structure: `none` models a lookup
  that returns an error ("not found"), `some svc` a successful `Get`.
* A pass (`Endpoints` in Go) is a structural recursion over the listed
  resources returning `Except String (List Endpoint)`; a non-nil Go
  error is `Except.error`.
* Helper functions that live in files of the repository not included
  here (`getTTLFromAnnotations`, `getTargetsFromTargetAnnotation`,
  `getHostnamesFromAnnotations`, `endpointsForHostname`, `suitableType`
  and the `endpoint` package types) are modelled from the spec; each
  such definition carries a doc comment starting with
  `Modelled from the spec:`.
-/

namespace ExtDNS

/-! ## Go string primitives -/

/-- Model of Go `strings.Split(s, sep)` (over the char list of `s`) for a
single-character separator: splits at every occurrence of `c`, yielding
`n+1` segments for `n` separators; the empty input yields `[[]]`. -/
def splitOnChar (c : Char) : List Char → List (List Char)
  | [] => [[]]
  | x :: xs =>
    match splitOnChar c xs with
    | [] => [[]]
    | y :: ys => if x = c then [] :: y :: ys else (x :: y) :: ys

/-- Go `strings.Split(s, sep)` for the single-character separators used by
the sources (`"/"`, `","`, `"."`). -/
def goSplit (s : String) (c : Char) : List String :=
  (splitOnChar c s.data).map String.mk

/-- Go `strings.SplitN(s, sep, 2)` for a single-character separator:
splits at the first occurrence of `c` only; without an occurrence the
whole string is the single segment. -/
def splitN2 (s : String) (c : Char) : List String :=
  if s.data.contains c then
    [String.mk (s.data.takeWhile (· ≠ c)),
     String.mk ((s.data.dropWhile (· ≠ c)).tail)]
  else [s]

/-- Go `strings.Replace(s, " ", "", -1)`: removes every space. -/
def removeSpaces (s : String) : String :=
  String.mk (s.data.filter (· ≠ ' '))

/-- Go `strings.TrimSuffix(s, ".")`: drops one trailing dot if present. -/
def trimTrailingDot (s : String) : String :=
  if s.data.getLast? = some '.' then String.mk s.data.dropLast else s

/-- Byte-wise lexicographic comparison of Go strings (`s <= t`), as used
by `sort.Sort` on a target slice; embedded over char lists. -/
def charListLe : List Char → List Char → Bool
  | [], _ => true
  | _ :: _, [] => false
  | a :: as, b :: bs =>
    if a.toNat < b.toNat then true
    else if b.toNat < a.toNat then false
    else charListLe as bs

/-- Lexicographic order on targets: `targetLe s t = true` iff `s <= t`
in Go's string order. -/
def targetLe (s t : String) : Bool := charListLe s.data t.data

/-- Propositional form of `targetLe`, for `List.Sorted`. -/
def targetLeRel (s t : String) : Prop := targetLe s t = true

instance : DecidableRel targetLeRel := fun s t => by
  unfold targetLeRel; infer_instance

/-! ## Annotation and label maps

Go `map[string]string` values are embedded as association lists; only
lookup and insert are used by the sources. -/

/-- Lookup in an annotation/label map (Go `m[k]` with the `ok` flag given
by `isSome`). -/
def lookupAnn (m : List (String × String)) (k : String) : Option String :=
  (m.find? (fun p => p.1 == k)).map (·.2)

/-- Go `m[k] = v` on a string map: replaces any binding of `k`, keeping
at most one binding per key. -/
def setAnn (m : List (String × String)) (k v : String) : List (String × String) :=
  m.filter (fun p => !(p.1 == k)) ++ [(k, v)]

/-! ## Annotation vocabulary (wire contract) -/

def targetAnnotKey : String := "external-dns.alpha.kubernetes.io/target"

def ttlAnnotKey : String := "external-dns.alpha.kubernetes.io/ttl"

def hostnameAnnotKey : String := "external-dns.alpha.kubernetes.io/hostname"

def controllerAnnotKey : String := "external-dns.alpha.kubernetes.io/controller"

def controllerAnnotValue : String := "dns-controller"

/-- Annotation in an Ambassador Host that maps to a Service
(`ambHostAnnotation` in the Go source). -/
def ambHostAnnot : String := "external-dns.ambassador-service"

def resourceLabelKey : String := "resource"

def dualstackLabelKey : String := "dualstack"

def albDualstackAnnotKey : String := "alb.ingress.kubernetes.io/ip-address-type"

def albDualstackAnnotValue : String := "dualstack"

/-! ## Endpoint model -/

/-- Modelled from the spec: a normalized DNS record description with
name, ordered targets, derived record type, TTL (0 = provider default)
and a label map.  Provider-specific pairs and the set identifier are
shared metadata copied through unchanged by every adapter and are not
involved in any verified property, so they are left out of the
embedding. -/
structure Endpoint where
  dnsName : String
  targets : List String
  recordType : String
  recordTTL : Nat
  labels : List (String × String)
deriving DecidableEq, Repr

/-- Modelled from the spec: record type inferred from whether a target
parses as an IP literal (A) or not (CNAME).  IPv4 literals are dotted
quads of decimal octets; an IPv6 literal contains a colon. -/
def isIPv4 (s : String) : Bool :=
  let parts := splitOnChar '.' s.data
  parts.length == 4 &&
    parts.all (fun p =>
      p ≠ [] && p.all Char.isDigit && p.length ≤ 3 &&
        p.foldl (fun n c => n * 10 + (c.toNat - 48)) 0 ≤ 255)

/-- Modelled from the spec: `suitableType` returns A for targets that
parse as IP literals and CNAME otherwise. -/
def suitableType (target : String) : String :=
  if isIPv4 target || target.data.contains ':' then "A" else "CNAME"

/-- Modelled from the spec: endpoint synthesis for one resolved hostname
(`endpointsForHostname`, absent from the included files).  The trailing
dot is stripped from the hostname; targets are grouped by inferred
record type (the repository's own adapter tests pin separate A and
CNAME endpoints when a status carries both IPs and hostnames); a
hostname whose resolved target set is empty yields no endpoint. -/
def endpointsForHostname (hostname : String) (targets : List String)
    (ttl : Nat) : List Endpoint :=
  let aTargets := targets.filter (fun t => suitableType t == "A")
  let cnameTargets := targets.filter (fun t => ¬ (suitableType t == "A"))
  (if aTargets.isEmpty then []
   else [{ dnsName := trimTrailingDot hostname, targets := aTargets,
           recordType := "A", recordTTL := ttl, labels := [] }]) ++
  (if cnameTargets.isEmpty then []
   else [{ dnsName := trimTrailingDot hostname, targets := cnameTargets,
           recordType := "CNAME", recordTTL := ttl, labels := [] }])

/-! ## Annotation extraction helpers -/

/-- Modelled from the spec: a TTL value is integer seconds or a duration
string such as "10s" normalized to integer seconds; anything else is
unparseable. -/
def parseTTLValue (s : String) : Option Nat :=
  if s.data ≠ [] ∧ s.data.all Char.isDigit then
    some (s.data.foldl (fun n c => n * 10 + (c.toNat - 48)) 0)
  else if s.data.getLast? = some 's' ∧ s.data.dropLast ≠ [] ∧
      s.data.dropLast.all Char.isDigit then
    some (s.data.dropLast.foldl (fun n c => n * 10 + (c.toNat - 48)) 0)
  else none

/-- Modelled from the spec: `getTTLFromAnnotations` returns the TTL and
an error flag.  A missing annotation is not an error and yields TTL 0;
an unparseable value yields TTL 0 with the error flag set (each calling
adapter in the included files decides whether that error is logged or
returned). -/
def getTTLFromAnnots (ann : List (String × String)) : Nat × Bool :=
  match lookupAnn ann ttlAnnotKey with
  | none => (0, false)
  | some s =>
    match parseTTLValue s with
    | some n => (n, false)
    | none => (0, true)

/-- Modelled from the spec: the target-override annotation is
comma-separated and used verbatim; absent or empty it contributes no
targets. -/
def getTargetsFromTargetAnnot (ann : List (String × String)) : List String :=
  match lookupAnn ann targetAnnotKey with
  | none => []
  | some s => if s = "" then [] else goSplit s ','

/-- Modelled from the spec: the hostname-override annotation is split on
comma with whitespace removed; absent it contributes no hostnames. -/
def getHostnamesFromAnnots (ann : List (String × String)) : List String :=
  match lookupAnn ann hostnameAnnotKey with
  | none => []
  | some s => goSplit (removeSpaces s) ','

/-! ## Load-balancer status -/

/-- One entry of a Kubernetes load-balancer ingress status. -/
structure LBIngress where
  ip : String
  hostname : String
deriving DecidableEq, Repr

/-- The target-collection loop shared verbatim by every adapter: for
each status entry append the IP if non-empty, then the hostname if
non-empty. -/
def targetsFromLB : List LBIngress → List String
  | [] => []
  | lb :: rest =>
    ((if lb.ip ≠ "" then [lb.ip] else []) ++
     (if lb.hostname ≠ "" then [lb.hostname] else [])) ++ targetsFromLB rest

/-- A Kubernetes Service as consumed by the sources: its `spec.type` and
load-balancer ingress status. -/
structure Service where
  svcType : String
  lbIngress : List LBIngress
deriving DecidableEq, Repr

/-- The batch-level sorting step `sort.Sort(ep.Targets)` applied to one
endpoint. -/
def sortTargets (ep : Endpoint) : Endpoint :=
  { ep with targets := ep.targets.insertionSort targetLeRel }

/-! ## Contour HTTPProxy source (`source/httpproxy.go`) -/

/-- The `spec.virtualHost` sub-object of a Contour resource. -/
structure VirtualHost where
  fqdn : String
deriving DecidableEq, Repr

/-- A Contour HTTPProxy resource as read by the source: metadata,
annotations, optional virtual host, status string and embedded
load-balancer status. -/
structure HTTPProxy where
  ns : String
  name : String
  annots : List (String × String)
  virtualHost : Option VirtualHost
  currentStatus : String
  lbIngress : List LBIngress

/-- The `httpProxySource` configuration.  The parsed FQDN template is an
abstract render function returning the rendered comma-separated hostname
string or a render error; `none` models a nil template.  The parsed
annotation selector is an abstract predicate on annotation maps. -/
structure HTTPProxySource where
  fqdnTemplate : Option (HTTPProxy → Except String String)
  annotSelector : List (String × String) → Bool
  combineFQDNAnnot : Bool
  ignoreHostnameAnnot : Bool

/-- Target resolution inside `endpointsFromHTTPProxy`: the target
annotation, or, when it yields no targets, the embedded load-balancer
status. -/
def hpTargets (hp : HTTPProxy) : List String :=
  let targets := getTargetsFromTargetAnnot hp.annots
  if targets.isEmpty then targetsFromLB hp.lbIngress else targets

/-- Embedding of `endpointsFromHTTPProxy`: nothing for a non-"valid"
status; otherwise endpoints for the virtual-host fqdn (when present and
non-empty) followed by endpoints for each hostname-override annotation
entry (unless suppressed).  A TTL parse error is only logged, so the
function is total. -/
def endpointsFromHTTPProxy (sc : HTTPProxySource) (hp : HTTPProxy) :
    List Endpoint :=
  if hp.currentStatus ≠ "valid" then []
  else
    let ttl := (getTTLFromAnnots hp.annots).1
    let targets := hpTargets hp
    (match hp.virtualHost with
     | some vh => if vh.fqdn ≠ "" then endpointsForHostname vh.fqdn targets ttl else []
     | none => []) ++
    (if ¬ sc.ignoreHostnameAnnot then
      ((getHostnamesFromAnnots hp.annots).map
        (fun h => endpointsForHostname h targets ttl)).flatten
     else [])

/-- Embedding of the HTTPProxy `endpointsFromTemplate`: render the
template (render failure aborts), split the output on comma with spaces
removed, strip trailing dots, and synthesize endpoints with the same
target resolution as `endpointsFromHTTPProxy`. -/
def hpEndpointsFromTemplate (sc : HTTPProxySource) (hp : HTTPProxy) :
    Except String (List Endpoint) :=
  match sc.fqdnTemplate with
  | none => Except.error "nil template"
  | some tmpl =>
    match tmpl hp with
    | Except.error e => Except.error ("failed to apply template: " ++ e)
    | Except.ok hostnames =>
      let ttl := (getTTLFromAnnots hp.annots).1
      let targets := hpTargets hp
      Except.ok
        (((goSplit (removeSpaces hostnames) ',').map
          (fun h => endpointsForHostname (trimTrailingDot h) targets ttl)).flatten)

/-- Embedding of the HTTPProxy `setResourceLabel`: stamps every endpoint
with the provenance label of the resource. -/
def setResourceLabelHP (hp : HTTPProxy) (eps : List Endpoint) : List Endpoint :=
  eps.map (fun ep =>
    { ep with labels := setAnn ep.labels resourceLabelKey ("HTTPProxy/" ++ hp.ns ++ "/" ++ hp.name) })

/-- The per-resource body of the HTTPProxy `Endpoints` loop after the
filter steps: native/annotation endpoints, then the template fallback or
combination policy. -/
def hpResourceEndpoints (sc : HTTPProxySource) (hp : HTTPProxy) :
    Except String (List Endpoint) :=
  let eps := endpointsFromHTTPProxy sc hp
  if (sc.combineFQDNAnnot || eps.isEmpty) && sc.fqdnTemplate.isSome then
    match hpEndpointsFromTemplate sc hp with
    | Except.error e => Except.error e
    | Except.ok tmplEps =>
      Except.ok (if sc.combineFQDNAnnot then eps ++ tmplEps else tmplEps)
  else Except.ok eps

/-- The controller-ownership check shared by the Contour passes: skip a
resource carrying a controller annotation whose value differs from the
configured identity. -/
def controllerMismatch (ann : List (String × String)) : Bool :=
  match lookupAnn ann controllerAnnotKey with
  | some c => c != controllerAnnotValue
  | none => false

/-- The accumulation loop of the HTTPProxy `Endpoints` pass: annotation
selector, controller-ownership and status filters skip a resource; a
template failure aborts the pass; a resource yielding no endpoints is
skipped; otherwise its labeled endpoints are appended in order. -/
def httpProxyGo (sc : HTTPProxySource) : List HTTPProxy → Except String (List Endpoint)
  | [] => Except.ok []
  | hp :: rest =>
    if ¬ sc.annotSelector hp.annots then httpProxyGo sc rest
    else if controllerMismatch hp.annots then httpProxyGo sc rest
    else if hp.currentStatus ≠ "valid" then httpProxyGo sc rest
    else
      match hpResourceEndpoints sc hp with
      | Except.error e => Except.error e
      | Except.ok eps =>
        if eps.isEmpty then httpProxyGo sc rest
        else
          match httpProxyGo sc rest with
          | Except.error e => Except.error e
          | Except.ok restEps => Except.ok (setResourceLabelHP hp eps ++ restEps)

/-- The full HTTPProxy `Endpoints` pass: accumulate, then sort each
endpoint's targets in place. -/
def httpProxyEndpoints (sc : HTTPProxySource) (hps : List HTTPProxy) :
    Except String (List Endpoint) :=
  (httpProxyGo sc hps).map (List.map sortTargets)

/-! ## Contour IngressRoute source -/

/-- A Contour IngressRoute resource as read by the source. -/
structure IngressRoute where
  ns : String
  name : String
  annots : List (String × String)
  virtualHost : Option VirtualHost
  currentStatus : String

/-- The `ingressRouteSource` configuration.  `lbServiceFound` embeds the
`serviceInformer` `Get` on the statically configured load-balancer
service: `none` models a lookup error. -/
structure IngressRouteSource where
  lbServiceFound : Option Service
  fqdnTemplate : Option (IngressRoute → Except String String)
  annotSelector : List (String × String) → Bool
  combineFQDNAnnot : Bool
  ignoreHostnameAnnot : Bool

/-- Embedding of `targetsFromContourLoadBalancer`: a failed service
lookup is logged and yields no targets and no error; a found service
contributes its load-balancer status entries. -/
def targetsFromContourLB (sc : IngressRouteSource) : List String :=
  match sc.lbServiceFound with
  | none => []
  | some svc => targetsFromLB svc.lbIngress

/-- Target resolution inside `endpointsFromIngressRoute`: the target
annotation, or, when it yields no targets, the configured load-balancer
service. -/
def irTargets (sc : IngressRouteSource) (rt : IngressRoute) : List String :=
  let targets := getTargetsFromTargetAnnot rt.annots
  if targets.isEmpty then targetsFromContourLB sc else targets

/-- Embedding of `endpointsFromIngressRoute`: nothing for a non-"valid"
status; otherwise endpoints for the virtual-host fqdn followed by
endpoints for each hostname-override annotation entry (unless
suppressed). -/
def endpointsFromIngressRoute (sc : IngressRouteSource) (rt : IngressRoute) :
    List Endpoint :=
  if rt.currentStatus ≠ "valid" then []
  else
    let ttl := (getTTLFromAnnots rt.annots).1
    let targets := irTargets sc rt
    (match rt.virtualHost with
     | some vh => if vh.fqdn ≠ "" then endpointsForHostname vh.fqdn targets ttl else []
     | none => []) ++
    (if ¬ sc.ignoreHostnameAnnot then
      ((getHostnamesFromAnnots rt.annots).map
        (fun h => endpointsForHostname h targets ttl)).flatten
     else [])

/-- Embedding of the IngressRoute `endpointsFromTemplate`. -/
def irEndpointsFromTemplate (sc : IngressRouteSource) (rt : IngressRoute) :
    Except String (List Endpoint) :=
  match sc.fqdnTemplate with
  | none => Except.error "nil template"
  | some tmpl =>
    match tmpl rt with
    | Except.error e => Except.error ("failed to apply template: " ++ e)
    | Except.ok hostnames =>
      let ttl := (getTTLFromAnnots rt.annots).1
      let targets := irTargets sc rt
      Except.ok
        (((goSplit (removeSpaces hostnames) ',').map
          (fun h => endpointsForHostname (trimTrailingDot h) targets ttl)).flatten)

/-- Embedding of the IngressRoute `setResourceLabel`. -/
def setResourceLabelIR (rt : IngressRoute) (eps : List Endpoint) : List Endpoint :=
  eps.map (fun ep =>
    { ep with labels := setAnn ep.labels resourceLabelKey ("ingressroute/" ++ rt.ns ++ "/" ++ rt.name) })

/-- The per-resource body of the IngressRoute `Endpoints` loop after the
filter steps. -/
def irResourceEndpoints (sc : IngressRouteSource) (rt : IngressRoute) :
    Except String (List Endpoint) :=
  let eps := endpointsFromIngressRoute sc rt
  if (sc.combineFQDNAnnot || eps.isEmpty) && sc.fqdnTemplate.isSome then
    match irEndpointsFromTemplate sc rt with
    | Except.error e => Except.error e
    | Except.ok tmplEps =>
      Except.ok (if sc.combineFQDNAnnot then eps ++ tmplEps else tmplEps)
  else Except.ok eps

/-- The accumulation loop of the IngressRoute `Endpoints` pass. -/
def ingressRouteGo (sc : IngressRouteSource) :
    List IngressRoute → Except String (List Endpoint)
  | [] => Except.ok []
  | rt :: rest =>
    if ¬ sc.annotSelector rt.annots then ingressRouteGo sc rest
    else if controllerMismatch rt.annots then ingressRouteGo sc rest
    else if rt.currentStatus ≠ "valid" then ingressRouteGo sc rest
    else
      match irResourceEndpoints sc rt with
      | Except.error e => Except.error e
      | Except.ok eps =>
        if eps.isEmpty then ingressRouteGo sc rest
        else
          match ingressRouteGo sc rest with
          | Except.error e => Except.error e
          | Except.ok restEps => Except.ok (setResourceLabelIR rt eps ++ restEps)

/-- The full IngressRoute `Endpoints` pass with the final target sort. -/
def ingressRouteEndpoints (sc : IngressRouteSource) (rts : List IngressRoute) :
    Except String (List Endpoint) :=
  (ingressRouteGo sc rts).map (List.map sortTargets)

/-! ## Ambassador Host source -/

/-- The `spec` sub-object of an Ambassador Host. -/
structure AmbHostSpec where
  hostname : String
deriving DecidableEq, Repr

/-- An Ambassador Host resource as read by the source; `spec?` is the
possibly-nil `host.Spec` pointer. -/
structure AmbHost where
  ns : String
  name : String
  annots : List (String × String)
  spec? : Option AmbHostSpec

/-- The `ambassadorHostSource` configuration: `svcGet ns name` embeds
the Kubernetes `Services(ns).Get(name)` call, with `none` modelling a
lookup error. -/
structure AmbassadorSource where
  svcGet : String → String → Option Service

/-- Embedding of `parseAmbLoadBalancerService` (returns namespace and
name): a single segment after splitting on "/" is tried as the legacy
`name.namespace` form (split at the first dot only) and falls back to
the Kubernetes default namespace; two segments are `namespace/name`;
anything else is an error.  `"default"` is the constant
`api.NamespaceDefault`. -/
def parseAmbLoadBalancerService (service : String) :
    Except String (String × String) :=
  let parts := goSplit service '/'
  if parts.length = 1 then
    let dotParts := splitN2 service '.'
    if dotParts.length = 2 then
      Except.ok (dotParts.getD 1 "", dotParts.getD 0 "")
    else
      Except.ok ("default", service)
  else if parts.length = 2 then
    Except.ok (parts.getD 0 "", parts.getD 1 "")
  else
    Except.error ("invalid external-dns service: " ++ service)

/-- Embedding of `targetsFromAmbassadorLoadBalancer`: a reference parse
error or a failed service lookup is returned as an error; a found
service contributes its load-balancer status entries. -/
def targetsFromAmbassadorLB (sc : AmbassadorSource) (service : String) :
    Except String (List String) :=
  match parseAmbLoadBalancerService service with
  | Except.error e => Except.error e
  | Except.ok (lbNs, lbName) =>
    match sc.svcGet lbNs lbName with
    | none => Except.error ("services " ++ lbName ++ " not found")
    | some svc => Except.ok (targetsFromLB svc.lbIngress)

/-- Embedding of `endpointsFromHost`: a TTL parse error is returned as
an error; endpoints are produced for the spec hostname when present and
non-empty. -/
def endpointsFromAmbHost (h : AmbHost) (targets : List String) :
    Except String (List Endpoint) :=
  let ttlRes := getTTLFromAnnots h.annots
  if ttlRes.2 then Except.error "ttl annotation parse failure"
  else
    match h.spec? with
    | some sp =>
      if sp.hostname ≠ "" then Except.ok (endpointsForHostname sp.hostname targets ttlRes.1)
      else Except.ok []
    | none => Except.ok []

/-- The accumulation loop of the Ambassador `Endpoints` pass: a Host
without the service annotation is skipped before any lookup; a lookup
or TTL failure aborts the pass; no provenance label is attached. -/
def ambGo (sc : AmbassadorSource) : List AmbHost → Except String (List Endpoint)
  | [] => Except.ok []
  | h :: rest =>
    match lookupAnn h.annots ambHostAnnot with
    | none => ambGo sc rest
    | some service =>
      match targetsFromAmbassadorLB sc service with
      | Except.error e => Except.error e
      | Except.ok targets =>
        match endpointsFromAmbHost h targets with
        | Except.error e => Except.error e
        | Except.ok hostEps =>
          if hostEps.isEmpty then ambGo sc rest
          else
            match ambGo sc rest with
            | Except.error e => Except.error e
            | Except.ok restEps => Except.ok (hostEps ++ restEps)

/-- The full Ambassador `Endpoints` pass with the final target sort. -/
def ambEndpoints (sc : AmbassadorSource) (hs : List AmbHost) :
    Except String (List Endpoint) :=
  (ambGo sc hs).map (List.map sortTargets)

/-! ## Kong TCPIngress source -/

/-- One rule of a TCPIngress spec (the port is not consumed). -/
structure TCPIngressRule where
  host : String
deriving DecidableEq, Repr

/-- A Kong TCPIngress resource as read by the source. -/
structure TCPIngress where
  ns : String
  name : String
  annots : List (String × String)
  rules : List TCPIngressRule
  lbIngress : List LBIngress

/-- The `kongTCPIngressSource` configuration. -/
structure KongSource where
  annotSelector : List (String × String) → Bool

/-- Embedding of `endpointsFromTCPIngress`: a TTL parse error is
returned as an error; endpoints for the hostname-override annotation
entries come first, then endpoints for each non-empty rule host. -/
def endpointsFromTCPIngress (ti : TCPIngress) (targets : List String) :
    Except String (List Endpoint) :=
  let ttlRes := getTTLFromAnnots ti.annots
  if ttlRes.2 then Except.error "ttl annotation parse failure"
  else
    Except.ok
      ((((getHostnamesFromAnnots ti.annots).map
          (fun h => endpointsForHostname h targets ttlRes.1)).flatten) ++
       ((ti.rules.map (fun r =>
          if r.host ≠ "" then endpointsForHostname r.host targets ttlRes.1 else [])).flatten))

/-- Embedding of the Kong `setResourceLabel`. -/
def setResourceLabelTI (ti : TCPIngress) (eps : List Endpoint) : List Endpoint :=
  eps.map (fun ep =>
    { ep with labels := setAnn ep.labels resourceLabelKey ("tcpingress/" ++ ti.ns ++ "/" ++ ti.name) })

/-- Embedding of the Kong `setDualstackLabel`: when the ALB dual-stack
annotation carries the expected value, stamp every endpoint with the
dual-stack label. -/
def setDualstackLabelTI (ti : TCPIngress) (eps : List Endpoint) : List Endpoint :=
  if lookupAnn ti.annots albDualstackAnnotKey = some albDualstackAnnotValue then
    eps.map (fun ep => { ep with labels := setAnn ep.labels dualstackLabelKey "true" })
  else eps

/-- The accumulation loop of the Kong `Endpoints` pass: annotation
selector filter, targets from the embedded load-balancer status, a TTL
failure aborts the pass, resource and dual-stack labels attached. -/
def kongGo (sc : KongSource) : List TCPIngress → Except String (List Endpoint)
  | [] => Except.ok []
  | ti :: rest =>
    if ¬ sc.annotSelector ti.annots then kongGo sc rest
    else
      match endpointsFromTCPIngress ti (targetsFromLB ti.lbIngress) with
      | Except.error e => Except.error e
      | Except.ok eps =>
        if eps.isEmpty then kongGo sc rest
        else
          match kongGo sc rest with
          | Except.error e => Except.error e
          | Except.ok restEps =>
            Except.ok (setDualstackLabelTI ti (setResourceLabelTI ti eps) ++ restEps)

/-- The full Kong `Endpoints` pass with the final target sort. -/
def kongEndpoints (sc : KongSource) (tis : List TCPIngress) :
    Except String (List Endpoint) :=
  (kongGo sc tis).map (List.map sortTargets)

/-! ## Gloo Proxy source -/

/-- One metadata source reference of a Gloo virtual host. -/
structure VHMetaSource where
  kind : String
  name : String
  ns : String
deriving DecidableEq, Repr

/-- A virtual host of a Gloo HTTP listener. -/
structure GlooVirtualHost where
  domains : List String
  sources : List VHMetaSource
deriving DecidableEq, Repr

/-- One listener of a Gloo proxy spec (only its HTTP listener's virtual
hosts are consumed). -/
structure GlooListener where
  vhosts : List GlooVirtualHost
deriving DecidableEq, Repr

/-- A Gloo Proxy resource as read by the source; `statusState` is its
`status.state` enum, which the source never consults. -/
structure GlooProxy where
  ns : String
  name : String
  listeners : List GlooListener
  statusState : String
deriving DecidableEq, Repr

/-- The `glooSource` configuration: `svcGet name` embeds the Kubernetes
`Services(gs.namespace).Get(name)` call and `vsAnnots ns name` the Gloo
`VirtualServices(ns).Get(name)` call returning the service's annotation
map; `none` models a lookup error. -/
structure GlooSource where
  svcGet : String → Option Service
  vsAnnots : String → String → Option (List (String × String))

/-- Embedding of `annotationsFromVirtualHost`: merge the annotations of
every referenced `*v1.VirtualService`, a failed lookup aborting. -/
def annotsFromVirtualHost (gs : GlooSource) :
    List VHMetaSource → Except String (List (String × String))
  | [] => Except.ok []
  | src :: rest =>
    if src.kind = "*v1.VirtualService" then
      match gs.vsAnnots src.ns src.name with
      | none => Except.error ("virtualservices " ++ src.name ++ " not found")
      | some anns =>
        match annotsFromVirtualHost gs rest with
        | Except.error e => Except.error e
        | Except.ok acc => Except.ok (anns.foldl (fun m p => setAnn m p.1 p.2) acc)
    else annotsFromVirtualHost gs rest

/-- Endpoint synthesis for one Gloo virtual host: resolved annotations,
TTL (a parse error aborts), then endpoints per domain with the trailing
dot stripped. -/
def glooVHostEndpoints (gs : GlooSource) (vh : GlooVirtualHost)
    (targets : List String) : Except String (List Endpoint) :=
  match annotsFromVirtualHost gs vh.sources with
  | Except.error e => Except.error e
  | Except.ok anns =>
    let ttlRes := getTTLFromAnnots anns
    if ttlRes.2 then Except.error "ttl annotation parse failure"
    else
      Except.ok
        ((vh.domains.map
          (fun d => endpointsForHostname (trimTrailingDot d) targets ttlRes.1)).flatten)

/-- Embedding of `endpointsFromProxy`: endpoints of every virtual host
of every listener, in order. -/
def glooEndpointsFromProxy (gs : GlooSource) (vhs : List GlooVirtualHost)
    (targets : List String) : Except String (List Endpoint) :=
  match vhs with
  | [] => Except.ok []
  | vh :: rest =>
    match glooVHostEndpoints gs vh targets with
    | Except.error e => Except.error e
    | Except.ok eps =>
      match glooEndpointsFromProxy gs rest targets with
      | Except.error e => Except.error e
      | Except.ok restEps => Except.ok (eps ++ restEps)

/-- Embedding of `proxyTargets`: look up the proxy's service by name (a
failure aborts the pass); only a LoadBalancer-type service contributes
its status entries. -/
def glooProxyTargets (gs : GlooSource) (name : String) :
    Except String (List String) :=
  match gs.svcGet name with
  | none => Except.error ("services " ++ name ++ " not found")
  | some svc =>
    if svc.svcType = "LoadBalancer" then Except.ok (targetsFromLB svc.lbIngress)
    else Except.ok []

/-- The accumulation loop of the Gloo `Endpoints` pass: no annotation
filter, no status check, no labels, and the endpoints of every proxy
are appended even when empty. -/
def glooGo (gs : GlooSource) : List GlooProxy → Except String (List Endpoint)
  | [] => Except.ok []
  | p :: rest =>
    match glooProxyTargets gs p.name with
    | Except.error e => Except.error e
    | Except.ok targets =>
      match glooEndpointsFromProxy gs (p.listeners.map (·.vhosts)).flatten targets with
      | Except.error e => Except.error e
      | Except.ok eps =>
        match glooGo gs rest with
        | Except.error e => Except.error e
        | Except.ok restEps => Except.ok (eps ++ restEps)

/-- The full Gloo `Endpoints` pass.  Unlike every other source, it has
no final target-sorting loop. -/
def glooEndpoints (gs : GlooSource) (ps : List GlooProxy) :
    Except String (List Endpoint) :=
  glooGo gs ps

/-- Discriminator for failed passes. -/
def isErr {α : Type} : Except String α → Bool
  | Except.error _ => true
  | Except.ok _ => false

/-! ## Shared lemmas -/

theorem charListLe_cons_iff (x y : Char) (xs ys : List Char) :
    charListLe (x :: xs) (y :: ys) = true ↔
      x.toNat < y.toNat ∨ (x.toNat = y.toNat ∧ charListLe xs ys = true) := by
  simp only [charListLe]
  by_cases h1 : x.toNat < y.toNat
  · simp [h1]
  · by_cases h2 : y.toNat < x.toNat
    · simp [h1, h2]; omega
    · have h3 : x.toNat = y.toNat := by omega
      simp [h1, h2, h3]

theorem charListLe_total (a b : List Char) :
    charListLe a b = true ∨ charListLe b a = true := by
  induction a generalizing b with
  | nil => left; rfl
  | cons x xs ih =>
    cases b with
    | nil => right; rfl
    | cons y ys =>
      rcases Nat.lt_trichotomy x.toNat y.toNat with h | h | h
      · left; simp [charListLe, h]
      · have hxy : ¬ x.toNat < y.toNat := by omega
        have hyx : ¬ y.toNat < x.toNat := by omega
        rcases ih ys with h2 | h2
        · left; simp [charListLe, hxy, hyx, h2]
        · right; simp [charListLe, hxy, hyx, h2]
      · right; simp [charListLe, h]

theorem charListLe_trans (a b c : List Char) (hab : charListLe a b = true)
    (hbc : charListLe b c = true) : charListLe a c = true := by
  induction a generalizing b c with
  | nil => rfl
  | cons x xs ih =>
    cases b with
    | nil => simp [charListLe] at hab
    | cons y ys =>
      cases c with
      | nil => simp [charListLe] at hbc
      | cons z zs =>
        rw [charListLe_cons_iff] at hab hbc ⊢
        rcases hab with h | ⟨he, hle⟩
        · rcases hbc with h2 | ⟨he2, _⟩
          · exact Or.inl (by omega)
          · exact Or.inl (by omega)
        · rcases hbc with h2 | ⟨he2, hle2⟩
          · exact Or.inl (by omega)
          · exact Or.inr ⟨by omega, ih ys zs hle hle2⟩

instance : IsTotal String targetLeRel :=
  ⟨fun s t => charListLe_total s.data t.data⟩

instance : IsTrans String targetLeRel :=
  ⟨fun a b c => charListLe_trans a.data b.data c.data⟩

theorem sortTargets_sorted (ep : Endpoint) :
    List.Sorted targetLeRel (sortTargets ep).targets :=
  List.sorted_insertionSort _ ep.targets

/-- Every endpoint of a pass that ends with the in-place target sort has
sorted targets. -/
theorem sorted_of_sortPass (e : Except String (List Endpoint))
    (l : List Endpoint) (ep : Endpoint)
    (he : e.map (List.map sortTargets) = Except.ok l) (hm : ep ∈ l) :
    List.Sorted targetLeRel ep.targets := by
  cases e with
  | error e => simp [Except.map] at he
  | ok a =>
    simp only [Except.map] at he
    cases he
    rcases List.mem_map.mp hm with ⟨ep0, _, rfl⟩
    exact sortTargets_sorted ep0

theorem splitOnChar_ne_nil (c : Char) (l : List Char) : splitOnChar c l ≠ [] := by
  induction l with
  | nil => simp [splitOnChar]
  | cons x xs ih =>
    simp only [splitOnChar]
    cases h : splitOnChar c xs with
    | nil => simp
    | cons y ys => by_cases hx : x = c <;> simp [hx]

theorem goSplit_ne_nil (s : String) (c : Char) : goSplit s c ≠ [] := by
  unfold goSplit
  simpa using splitOnChar_ne_nil c s.data

theorem goSplit_length_pos (s : String) (c : Char) : 1 ≤ (goSplit s c).length :=
  List.length_pos.mpr (goSplit_ne_nil s c)

theorem lookupAnn_cons (p : String × String) (m : List (String × String))
    (k : String) :
    lookupAnn (p :: m) k = if p.1 == k then some p.2 else lookupAnn m k := by
  by_cases h : p.1 == k
  · simp [lookupAnn, List.find?_cons_of_pos, h]
  · simp [lookupAnn, List.find?_cons_of_neg, h]

theorem setAnn_cons (p : String × String) (m : List (String × String))
    (k v : String) :
    setAnn (p :: m) k v =
      if p.1 == k then setAnn m k v else p :: setAnn m k v := by
  by_cases hp : p.1 == k
  · simp [setAnn, List.filter_cons, hp]
  · simp [setAnn, List.filter_cons, hp]

theorem lookupAnn_setAnn_self (m : List (String × String)) (k v : String) :
    lookupAnn (setAnn m k v) k = some v := by
  induction m with
  | nil => simp [lookupAnn, setAnn]
  | cons p m ih =>
    rw [setAnn_cons]
    by_cases h : p.1 == k
    · simpa [h] using ih
    · simpa [h, lookupAnn_cons] using ih

theorem lookupAnn_setAnn_ne (m : List (String × String)) (k v k' : String)
    (h : k' ≠ k) : lookupAnn (setAnn m k v) k' = lookupAnn m k' := by
  have hk : (k == k') = false := by
    simpa using (Ne.symm h)
  induction m with
  | nil => simp [lookupAnn, setAnn, lookupAnn_cons, hk]
  | cons p m ih =>
    rw [setAnn_cons]
    by_cases hp : p.1 == k
    · have hpk : p.1 = k := by simpa using hp
      have hp' : (p.1 == k') = false := by
        simpa [hpk] using (Ne.symm h)
      simpa [hp, lookupAnn_cons, hp'] using ih
    · simp only [hp, Bool.false_eq_true, if_false, lookupAnn_cons]
      by_cases hp2 : p.1 == k'
      · simp [hp2]
      · simpa [hp2] using ih

theorem sortTargets_labels (ep : Endpoint) : (sortTargets ep).labels = ep.labels := rfl

theorem sortTargets_dnsName (ep : Endpoint) : (sortTargets ep).dnsName = ep.dnsName := rfl

/-! ## Claim C5: the Ambassador service-reference parser -/

/-- C5: the external load-balancer service reference parser maps
"ns1/svc1" to namespace "ns1" and name "svc1", "svc1.ns1" to namespace
"ns1" and name "svc1", and "svc1" to the default namespace with name
"svc1"; it returns an error for "a/b/c", and in general it errs exactly
when splitting on "/" yields three or more segments, i.e. when the
reference has more than one "/" separator. -/
theorem claim_C5 :
    parseAmbLoadBalancerService "ns1/svc1" = Except.ok ("ns1", "svc1") ∧
    parseAmbLoadBalancerService "svc1.ns1" = Except.ok ("ns1", "svc1") ∧
    parseAmbLoadBalancerService "svc1" = Except.ok ("default", "svc1") ∧
    isErr (parseAmbLoadBalancerService "a/b/c") = true ∧
    ∀ s : String,
      isErr (parseAmbLoadBalancerService s) = true ↔ 3 ≤ (goSplit s '/').length := by
  refine ⟨rfl, rfl, rfl, rfl, ?_⟩
  intro s
  cases h : goSplit s '/' with
  | nil => exact absurd h (goSplit_ne_nil s '/')
  | cons a tl =>
    cases tl with
    | nil =>
      have hpe : isErr (parseAmbLoadBalancerService s) = false := by
        simp only [parseAmbLoadBalancerService, h, List.length_singleton]
        norm_num
        split <;> rfl
      rw [hpe]
      simp
    | cons b tl2 =>
      cases tl2 with
      | nil =>
        simp [parseAmbLoadBalancerService, h, isErr]
      | cons c tl3 =>
        simp [parseAmbLoadBalancerService, h, isErr]

/-- Witness for C5: the general error characterization evaluated at the
reference "a/b/c". -/
theorem claim_C5_witness :
    isErr (parseAmbLoadBalancerService "a/b/c") = true ↔
      3 ≤ (goSplit "a/b/c" '/').length :=
  claim_C5.2.2.2.2 "a/b/c"

/-! ## Claim C1: the target-override annotation bypasses the status -/

def c1src : HTTPProxySource :=
  { fqdnTemplate := none, annotSelector := fun _ => true,
    combineFQDNAnnot := false, ignoreHostnameAnnot := false }

def c1hp : HTTPProxy :=
  { ns := "default", name := "c1",
    annots := [(targetAnnotKey, "1.2.3.4")],
    virtualHost := some { fqdn := "example.org" },
    currentStatus := "valid",
    lbIngress := [{ ip := "9.9.9.9", hostname := "lb.example.org" }] }

def c1ep : Endpoint :=
  { dnsName := "example.org", targets := ["1.2.3.4"], recordType := "A",
    recordTTL := 0, labels := [(resourceLabelKey, "HTTPProxy/default/c1")] }

/-- C1: whenever the target-override annotation is present and
non-empty, both the HTTPProxy and the IngressRoute target resolution
return exactly its comma-separated values, for every embedded
load-balancer status (HTTPProxy) and every configured load-balancer
service (IngressRoute) — the status is never consulted; and for the
concrete resource with target annotation "1.2.3.4" and a non-empty
load-balancer status, the pass yields exactly one endpoint with targets
"1.2.3.4" and record type A. -/
theorem claim_C1 :
    (∀ (n nm : String) (ann : List (String × String)) (vh : Option VirtualHost)
        (st : String) (lbs : List LBIngress) (v : String),
        lookupAnn ann targetAnnotKey = some v → v ≠ "" →
        hpTargets ⟨n, nm, ann, vh, st, lbs⟩ = goSplit v ',' ∧ goSplit v ',' ≠ []) ∧
    (∀ (sc : IngressRouteSource) (rt : IngressRoute) (v : String),
        lookupAnn rt.annots targetAnnotKey = some v → v ≠ "" →
        irTargets sc rt = goSplit v ',') ∧
    httpProxyEndpoints c1src [c1hp] = Except.ok [c1ep] := by
  refine ⟨?_, ?_, rfl⟩
  · intro n nm ann vh st lbs v hl hv
    refine ⟨?_, goSplit_ne_nil v ','⟩
    unfold hpTargets getTargetsFromTargetAnnot
    simp only [hl, hv, if_false]
    cases g : goSplit v ',' with
    | nil => exact absurd g (goSplit_ne_nil v ',')
    | cons a l => simp [g]
  · intro sc rt v hl hv
    unfold irTargets getTargetsFromTargetAnnot
    simp only [hl, hv, if_false]
    cases g : goSplit v ',' with
    | nil => exact absurd g (goSplit_ne_nil v ',')
    | cons a l => simp [g]

/-- Witness for C1: the HTTPProxy target resolution on the concrete
resource of the claim, with a non-empty load-balancer status. -/
theorem claim_C1_witness :
    hpTargets ⟨"default", "c1", [(targetAnnotKey, "1.2.3.4")],
        some ⟨"example.org"⟩, "valid", [⟨"9.9.9.9", "lb.example.org"⟩]⟩ =
      goSplit "1.2.3.4" ',' ∧ goSplit "1.2.3.4" ',' ≠ [] :=
  claim_C1.1 "default" "c1" [(targetAnnotKey, "1.2.3.4")]
    (some ⟨"example.org"⟩) "valid" [⟨"9.9.9.9", "lb.example.org"⟩]
    "1.2.3.4" rfl (by decide)

/-! ## Claim C10: Ambassador Hosts without the service annotation -/

theorem ambGo_skip (sc : AmbassadorSource) (h : AmbHost) (post : List AmbHost)
    (hna : lookupAnn h.annots ambHostAnnot = none) :
    ambGo sc (h :: post) = ambGo sc post := by
  simp [ambGo, hna]

def c10src : AmbassadorSource := { svcGet := fun _ _ => none }

def c10host : AmbHost :=
  { ns := "default", name := "h1", annots := [("other", "x")],
    spec? := some { hostname := "app.example.com" } }

/-- C10: an Ambassador Host whose annotation map lacks the
"external-dns.ambassador-service" key contributes nothing to the pass
and does not make it fail: the pass over any host list containing it
equals the pass over the list with it removed, for every service-lookup
behaviour (so no lookup for that host can influence the result). -/
theorem claim_C10 :
    ∀ (sc : AmbassadorSource) (pre : List AmbHost) (h : AmbHost)
      (post : List AmbHost),
      lookupAnn h.annots ambHostAnnot = none →
      ambEndpoints sc (pre ++ h :: post) = ambEndpoints sc (pre ++ post) := by
  intro sc pre h post hna
  unfold ambEndpoints
  congr 1
  induction pre with
  | nil => simpa using ambGo_skip sc h post hna
  | cons p pre ih =>
    simp only [List.cons_append, ambGo, List.append_eq]
    rw [ih]

/-- Witness for C10: a Host without the service annotation is dropped
from a concrete singleton pass. -/
theorem claim_C10_witness :
    ambEndpoints c10src ([] ++ c10host :: []) = ambEndpoints c10src ([] ++ []) :=
  claim_C10 c10src [] c10host [] rfl

/-! ## Claim C2: the FQDN-template combination policy -/

def c2src : HTTPProxySource :=
  { fqdnTemplate := some (fun _ => Except.ok "tmpl.fqdn.com"),
    annotSelector := fun _ => true,
    combineFQDNAnnot := false, ignoreHostnameAnnot := false }

def c2hp : HTTPProxy :=
  { ns := "default", name := "c2",
    annots := [(targetAnnotKey, "1.2.3.4")],
    virtualHost := some { fqdn := "foo.bar" },
    currentStatus := "valid",
    lbIngress := [] }

def c2ep : Endpoint :=
  { dnsName := "foo.bar", targets := ["1.2.3.4"], recordType := "A",
    recordTTL := 0, labels := [(resourceLabelKey, "HTTPProxy/default/c2")] }

/-- C2: in the HTTPProxy and IngressRoute passes, when the
native/annotation sources yield a non-empty endpoint set and the
combine flag is false the template's endpoints are not included; when
they yield an empty set the template's endpoints are the result; when
the combine flag is true the template's endpoints are appended after
them.  For the concrete resource with native hostname "foo.bar",
combine=false and a non-empty template, the pass yields exactly one
endpoint named "foo.bar". -/
theorem claim_C2 :
    (∀ (sc : HTTPProxySource) (hp : HTTPProxy),
        sc.combineFQDNAnnot = false → endpointsFromHTTPProxy sc hp ≠ [] →
        hpResourceEndpoints sc hp = Except.ok (endpointsFromHTTPProxy sc hp)) ∧
    (∀ (sc : HTTPProxySource) (hp : HTTPProxy) (tmplEps : List Endpoint),
        endpointsFromHTTPProxy sc hp = [] →
        hpEndpointsFromTemplate sc hp = Except.ok tmplEps →
        hpResourceEndpoints sc hp = Except.ok tmplEps) ∧
    (∀ (sc : HTTPProxySource) (hp : HTTPProxy) (tmplEps : List Endpoint),
        sc.combineFQDNAnnot = true →
        hpEndpointsFromTemplate sc hp = Except.ok tmplEps →
        hpResourceEndpoints sc hp = Except.ok (endpointsFromHTTPProxy sc hp ++ tmplEps)) ∧
    (∀ (sc : IngressRouteSource) (rt : IngressRoute),
        sc.combineFQDNAnnot = false → endpointsFromIngressRoute sc rt ≠ [] →
        irResourceEndpoints sc rt = Except.ok (endpointsFromIngressRoute sc rt)) ∧
    (∀ (sc : IngressRouteSource) (rt : IngressRoute) (tmplEps : List Endpoint),
        endpointsFromIngressRoute sc rt = [] →
        irEndpointsFromTemplate sc rt = Except.ok tmplEps →
        irResourceEndpoints sc rt = Except.ok tmplEps) ∧
    (∀ (sc : IngressRouteSource) (rt : IngressRoute) (tmplEps : List Endpoint),
        sc.combineFQDNAnnot = true →
        irEndpointsFromTemplate sc rt = Except.ok tmplEps →
        irResourceEndpoints sc rt = Except.ok (endpointsFromIngressRoute sc rt ++ tmplEps)) ∧
    httpProxyEndpoints c2src [c2hp] = Except.ok [c2ep] := by
  refine ⟨?_, ?_, ?_, ?_, ?_, ?_, rfl⟩
  · intro sc hp hc hne
    have hem : (endpointsFromHTTPProxy sc hp).isEmpty = false := by
      cases g : endpointsFromHTTPProxy sc hp with
      | nil => exact absurd g hne
      | cons a l => rfl
    unfold hpResourceEndpoints
    simp [hc, hem]
  · intro sc hp tmplEps he ht
    cases hT : sc.fqdnTemplate with
    | none =>
      unfold hpEndpointsFromTemplate at ht
      rw [hT] at ht
      cases ht
    | some f =>
      unfold hpResourceEndpoints
      rw [he, ht, hT]
      cases hc : sc.combineFQDNAnnot <;> simp
  · intro sc hp tmplEps hc ht
    cases hT : sc.fqdnTemplate with
    | none =>
      unfold hpEndpointsFromTemplate at ht
      rw [hT] at ht
      cases ht
    | some f =>
      unfold hpResourceEndpoints
      rw [ht, hT, hc]
      simp
  · intro sc rt hc hne
    have hem : (endpointsFromIngressRoute sc rt).isEmpty = false := by
      cases g : endpointsFromIngressRoute sc rt with
      | nil => exact absurd g hne
      | cons a l => rfl
    unfold irResourceEndpoints
    simp [hc, hem]
  · intro sc rt tmplEps he ht
    cases hT : sc.fqdnTemplate with
    | none =>
      unfold irEndpointsFromTemplate at ht
      rw [hT] at ht
      cases ht
    | some f =>
      unfold irResourceEndpoints
      rw [he, ht, hT]
      cases hc : sc.combineFQDNAnnot <;> simp
  · intro sc rt tmplEps hc ht
    cases hT : sc.fqdnTemplate with
    | none =>
      unfold irEndpointsFromTemplate at ht
      rw [hT] at ht
      cases ht
    | some f =>
      unfold irResourceEndpoints
      rw [ht, hT, hc]
      simp

/-- Witness for C2: the non-empty/combine=false case evaluated on the
concrete resource with native hostname "foo.bar". -/
theorem claim_C2_witness :
    hpResourceEndpoints c2src c2hp = Except.ok (endpointsFromHTTPProxy c2src c2hp) :=
  claim_C2.1 c2src c2hp rfl (by decide)

/-! ## Claim C3: failed service lookups (corrected) -/

theorem irResourceEndpoints_noTemplate (sc : IngressRouteSource)
    (rt : IngressRoute) (hT : sc.fqdnTemplate = none) :
    irResourceEndpoints sc rt = Except.ok (endpointsFromIngressRoute sc rt) := by
  unfold irResourceEndpoints
  simp [hT]

theorem irGo_ok_noTemplate (sc : IngressRouteSource)
    (hT : sc.fqdnTemplate = none) (rts : List IngressRoute) :
    ∃ l, ingressRouteGo sc rts = Except.ok l := by
  induction rts with
  | nil => exact ⟨[], rfl⟩
  | cons rt rest ih =>
    by_cases h1 : sc.annotSelector rt.annots = true
    · by_cases h2 : controllerMismatch rt.annots = true
      · simpa [ingressRouteGo, h1, h2] using ih
      · by_cases h3 : rt.currentStatus = "valid"
        · by_cases h4 : (endpointsFromIngressRoute sc rt).isEmpty = true
          · simpa [ingressRouteGo, h1, h2, h3,
              irResourceEndpoints_noTemplate sc rt hT, h4] using ih
          · obtain ⟨l, hl⟩ := ih
            exact ⟨setResourceLabelIR rt (endpointsFromIngressRoute sc rt) ++ l,
              by simp [ingressRouteGo, h1, h2, h3,
                irResourceEndpoints_noTemplate sc rt hT, h4, hl]⟩
        · simpa [ingressRouteGo, h1, h2, h3] using ih
    · simpa [ingressRouteGo, h1] using ih

def c3src : AmbassadorSource := { svcGet := fun _ _ => none }

def c3host : AmbHost :=
  { ns := "default", name := "h1",
    annots := [(ambHostAnnot, "svc1")],
    spec? := some { hostname := "app.example.com" } }

/-- C3 counterexample: in the Ambassador pass, a Host whose service
reference parses but whose service lookup fails makes the whole pass
return an error — the failure is not degraded to an empty target
list. -/
theorem claim_C3_cx :
    ambEndpoints c3src [c3host] = Except.error "services svc1 not found" := rfl

/-- C3 (amended): in the Contour IngressRoute adapter a failed lookup
of the configured load-balancer service degrades to an empty target
list and, absent a template, the pass always succeeds; in the
Ambassador adapter a failed lookup of a resolvable reference aborts the
pass with an error. -/
theorem claim_C3 :
    (∀ sc : IngressRouteSource, sc.lbServiceFound = none →
        targetsFromContourLB sc = []) ∧
    (∀ (sc : IngressRouteSource) (rts : List IngressRoute),
        sc.fqdnTemplate = none → ∃ l, ingressRouteEndpoints sc rts = Except.ok l) ∧
    (∀ (sc : AmbassadorSource) (h : AmbHost) (rest : List AmbHost)
        (service lbNs lbName : String),
        lookupAnn h.annots ambHostAnnot = some service →
        parseAmbLoadBalancerService service = Except.ok (lbNs, lbName) →
        sc.svcGet lbNs lbName = none →
        ambEndpoints sc (h :: rest) =
          Except.error ("services " ++ lbName ++ " not found")) := by
  refine ⟨?_, ?_, ?_⟩
  · intro sc hn
    unfold targetsFromContourLB
    rw [hn]
  · intro sc rts hT
    obtain ⟨l, hl⟩ := irGo_ok_noTemplate sc hT rts
    exact ⟨l.map sortTargets, by simp [ingressRouteEndpoints, hl, Except.map]⟩
  · intro sc h rest service lbNs lbName hl hp hs
    unfold ambEndpoints
    simp [ambGo, targetsFromAmbassadorLB, hl, hp, hs, Except.map]

/-- Witness for C3: the Ambassador failure conjunct evaluated on a
concrete Host referencing the missing service "svc1". -/
theorem claim_C3_witness :
    ambEndpoints c3src [c3host] =
      Except.error ("services " ++ "svc1" ++ " not found") :=
  claim_C3.2.2 c3src c3host [] "svc1" "default" "svc1" rfl rfl rfl

/-! ## Claim C4: TTL parse failures (corrected) -/

theorem hpResourceEndpoints_noTemplate (sc : HTTPProxySource)
    (hp : HTTPProxy) (hT : sc.fqdnTemplate = none) :
    hpResourceEndpoints sc hp = Except.ok (endpointsFromHTTPProxy sc hp) := by
  unfold hpResourceEndpoints
  simp [hT]

theorem hpGo_ok_noTemplate (sc : HTTPProxySource)
    (hT : sc.fqdnTemplate = none) (hps : List HTTPProxy) :
    ∃ l, httpProxyGo sc hps = Except.ok l := by
  induction hps with
  | nil => exact ⟨[], rfl⟩
  | cons hp rest ih =>
    by_cases h1 : sc.annotSelector hp.annots = true
    · by_cases h2 : controllerMismatch hp.annots = true
      · simpa [httpProxyGo, h1, h2] using ih
      · by_cases h3 : hp.currentStatus = "valid"
        · by_cases h4 : (endpointsFromHTTPProxy sc hp).isEmpty = true
          · simpa [httpProxyGo, h1, h2, h3,
              hpResourceEndpoints_noTemplate sc hp hT, h4] using ih
          · obtain ⟨l, hl⟩ := ih
            exact ⟨setResourceLabelHP hp (endpointsFromHTTPProxy sc hp) ++ l,
              by simp [httpProxyGo, h1, h2, h3,
                hpResourceEndpoints_noTemplate sc hp hT, h4, hl]⟩
        · simpa [httpProxyGo, h1, h2, h3] using ih
    · simpa [httpProxyGo, h1] using ih

def c4src : HTTPProxySource :=
  { fqdnTemplate := none, annotSelector := fun _ => true,
    combineFQDNAnnot := false, ignoreHostnameAnnot := false }

def c4hp : HTTPProxy :=
  { ns := "default", name := "c4",
    annots := [(ttlAnnotKey, "not-a-ttl"), (targetAnnotKey, "1.2.3.4")],
    virtualHost := some { fqdn := "foo.bar" },
    currentStatus := "valid",
    lbIngress := [] }

def c4ep : Endpoint :=
  { dnsName := "foo.bar", targets := ["1.2.3.4"], recordType := "A",
    recordTTL := 0, labels := [(resourceLabelKey, "HTTPProxy/default/c4")] }

def c4ksrc : KongSource := { annotSelector := fun _ => true }

def c4kti : TCPIngress :=
  { ns := "kong", name := "t1",
    annots := [(ttlAnnotKey, "not-a-ttl"), (hostnameAnnotKey, "a.example.com")],
    rules := [],
    lbIngress := [{ ip := "", hostname := "lb.example.com" }] }

/-- C4 counterexample: in the Kong TCPIngress pass an unparseable TTL
annotation makes the whole pass return an error instead of being
ignored with TTL 0. -/
theorem claim_C4_cx :
    kongEndpoints c4ksrc [c4kti] = Except.error "ttl annotation parse failure" ∧
    lookupAnn c4kti.annots ttlAnnotKey = some "not-a-ttl" :=
  ⟨rfl, rfl⟩

/-- C4 (amended): a missing TTL annotation yields TTL 0 and no error; an
unparseable TTL annotation yields TTL 0 with an error flag, which the
Contour HTTPProxy pass ignores (the pass still produces that resource's
endpoints with TTL 0, and absent a template never fails), while the
Kong TCPIngress pass returns it as an error aborting the pass. -/
theorem claim_C4 :
    (∀ ann : List (String × String), lookupAnn ann ttlAnnotKey = none →
        getTTLFromAnnots ann = (0, false)) ∧
    (∀ ann : List (String × String), (getTTLFromAnnots ann).2 = true →
        (getTTLFromAnnots ann).1 = 0) ∧
    (∀ (sc : HTTPProxySource) (hps : List HTTPProxy), sc.fqdnTemplate = none →
        ∃ l, httpProxyEndpoints sc hps = Except.ok l) ∧
    (httpProxyEndpoints c4src [c4hp] = Except.ok [c4ep] ∧ c4ep.recordTTL = 0) ∧
    (∀ (sc : KongSource) (ti : TCPIngress) (rest : List TCPIngress),
        sc.annotSelector ti.annots = true →
        (getTTLFromAnnots ti.annots).2 = true →
        kongEndpoints sc (ti :: rest) =
          Except.error "ttl annotation parse failure") := by
  refine ⟨?_, ?_, ?_, ⟨rfl, rfl⟩, ?_⟩
  · intro ann h
    unfold getTTLFromAnnots
    rw [h]
  · intro ann h
    unfold getTTLFromAnnots at h ⊢
    cases hl : lookupAnn ann ttlAnnotKey with
    | none => simp [hl] at h ⊢
    | some s =>
      cases hp : parseTTLValue s with
      | none => simp [hl, hp]
      | some n => simp [hl, hp] at h
  · intro sc hps hT
    obtain ⟨l, hl⟩ := hpGo_ok_noTemplate sc hT hps
    exact ⟨l.map sortTargets, by simp [httpProxyEndpoints, hl, Except.map]⟩
  · intro sc ti rest hsel httl
    unfold kongEndpoints
    simp [kongGo, endpointsFromTCPIngress, hsel, httl, Except.map]

/-- Witness for C4: the Kong abort conjunct evaluated on a concrete
TCPIngress with TTL annotation "not-a-ttl". -/
theorem claim_C4_witness :
    kongEndpoints c4ksrc [c4kti] = Except.error "ttl annotation parse failure" :=
  claim_C4.2.2.2.2 c4ksrc c4kti [] rfl rfl

/-! ## Claim C6: target sorting (corrected) -/

def c6gs : GlooSource :=
  { svcGet := fun n =>
      if n = "p" then
        some { svcType := "LoadBalancer",
               lbIngress := [{ ip := "", hostname := "b.example.org" },
                             { ip := "", hostname := "a.example.org" }] }
      else none,
    vsAnnots := fun _ _ => none }

def c6p : GlooProxy :=
  { ns := "gloo-system", name := "p",
    listeners := [{ vhosts := [{ domains := ["d.test"], sources := [] }] }],
    statusState := "Accepted" }

def c6ep : Endpoint :=
  { dnsName := "d.test", targets := ["b.example.org", "a.example.org"],
    recordType := "CNAME", recordTTL := 0, labels := [] }

/-- C6 counterexample: the Gloo pass has no target-sorting step; with a
service whose load-balancer status lists hostnames out of order, the
returned endpoint's target list is not sorted. -/
theorem claim_C6_cx :
    glooEndpoints c6gs [c6p] = Except.ok [c6ep] ∧
    ¬ List.Sorted targetLeRel c6ep.targets :=
  ⟨rfl, by decide⟩

def w6src : HTTPProxySource :=
  { fqdnTemplate := none, annotSelector := fun _ => true,
    combineFQDNAnnot := false, ignoreHostnameAnnot := false }

def w6hp : HTTPProxy :=
  { ns := "default", name := "w6",
    annots := [],
    virtualHost := some { fqdn := "example.org" },
    currentStatus := "valid",
    lbIngress := [{ ip := "9.9.9.9", hostname := "" },
                  { ip := "1.1.1.1", hostname := "" }] }

def w6ep : Endpoint :=
  { dnsName := "example.org", targets := ["1.1.1.1", "9.9.9.9"],
    recordType := "A", recordTTL := 0,
    labels := [(resourceLabelKey, "HTTPProxy/default/w6")] }

/-- C6 (amended): every endpoint returned by a successful pass of the
HTTPProxy, IngressRoute, Ambassador and Kong adapters has its targets
sorted non-decreasing in lexicographic order; the Gloo adapter does not
sort. -/
theorem claim_C6 :
    (∀ (sc : HTTPProxySource) (hps : List HTTPProxy) (l : List Endpoint)
        (ep : Endpoint), httpProxyEndpoints sc hps = Except.ok l → ep ∈ l →
        List.Sorted targetLeRel ep.targets) ∧
    (∀ (sc : IngressRouteSource) (rts : List IngressRoute) (l : List Endpoint)
        (ep : Endpoint), ingressRouteEndpoints sc rts = Except.ok l → ep ∈ l →
        List.Sorted targetLeRel ep.targets) ∧
    (∀ (sc : AmbassadorSource) (hs : List AmbHost) (l : List Endpoint)
        (ep : Endpoint), ambEndpoints sc hs = Except.ok l → ep ∈ l →
        List.Sorted targetLeRel ep.targets) ∧
    (∀ (sc : KongSource) (tis : List TCPIngress) (l : List Endpoint)
        (ep : Endpoint), kongEndpoints sc tis = Except.ok l → ep ∈ l →
        List.Sorted targetLeRel ep.targets) := by
  refine ⟨?_, ?_, ?_, ?_⟩
  · intro sc xs l ep he hm
    exact sorted_of_sortPass (httpProxyGo sc xs) l ep he hm
  · intro sc xs l ep he hm
    exact sorted_of_sortPass (ingressRouteGo sc xs) l ep he hm
  · intro sc xs l ep he hm
    exact sorted_of_sortPass (ambGo sc xs) l ep he hm
  · intro sc xs l ep he hm
    exact sorted_of_sortPass (kongGo sc xs) l ep he hm

/-- Witness for C6: sortedness of the single endpoint of a concrete
HTTPProxy pass whose load-balancer status lists IPs out of order. -/
theorem claim_C6_witness : List.Sorted targetLeRel w6ep.targets :=
  claim_C6.1 w6src [w6hp] [w6ep] w6ep rfl (by simp)

/-! ## Claim C9: non-valid resources (corrected) -/

theorem hpGo_skip_invalid (sc : HTTPProxySource) (r : HTTPProxy)
    (post : List HTTPProxy) (h : r.currentStatus ≠ "valid") :
    httpProxyGo sc (r :: post) = httpProxyGo sc post := by
  simp only [httpProxyGo]
  by_cases h1 : sc.annotSelector r.annots = true
  · by_cases h2 : controllerMismatch r.annots = true
    · simp [h1, h2]
    · simp [h1, h2, h]
  · simp [h1]

theorem irGo_skip_invalid (sc : IngressRouteSource) (r : IngressRoute)
    (post : List IngressRoute) (h : r.currentStatus ≠ "valid") :
    ingressRouteGo sc (r :: post) = ingressRouteGo sc post := by
  simp only [ingressRouteGo]
  by_cases h1 : sc.annotSelector r.annots = true
  · by_cases h2 : controllerMismatch r.annots = true
    · simp [h1, h2]
    · simp [h1, h2, h]
  · simp [h1]

def c9gs : GlooSource :=
  { svcGet := fun n =>
      if n = "p9" then
        some { svcType := "LoadBalancer",
               lbIngress := [{ ip := "1.2.3.4", hostname := "" }] }
      else none,
    vsAnnots := fun _ _ => none }

def c9p : GlooProxy :=
  { ns := "gloo-system", name := "p9",
    listeners := [{ vhosts := [{ domains := ["d.test"], sources := [] }] }],
    statusState := "Rejected" }

def c9ep : Endpoint :=
  { dnsName := "d.test", targets := ["1.2.3.4"], recordType := "A",
    recordTTL := 0, labels := [] }

/-- C9 counterexample: the Gloo adapter never consults the proxy's
status: a Rejected proxy still produces an endpoint. -/
theorem claim_C9_cx :
    glooEndpoints c9gs [c9p] = Except.ok [c9ep] ∧
    c9p.statusState = "Rejected" ∧ ([c9ep] : List Endpoint) ≠ [] :=
  ⟨rfl, rfl, by decide⟩

/-- C9 (amended): in the Contour HTTPProxy and IngressRoute adapters, a
resource with a non-"valid" status contributes nothing: the pass over
any resource list containing it equals the pass with it removed, and
the per-resource synthesis returns no endpoints; the Gloo adapter
ignores its resources' status entirely. -/
theorem claim_C9 :
    (∀ (sc : HTTPProxySource) (pre : List HTTPProxy) (r : HTTPProxy)
        (post : List HTTPProxy), r.currentStatus ≠ "valid" →
        httpProxyEndpoints sc (pre ++ r :: post) = httpProxyEndpoints sc (pre ++ post)) ∧
    (∀ (sc : IngressRouteSource) (pre : List IngressRoute) (r : IngressRoute)
        (post : List IngressRoute), r.currentStatus ≠ "valid" →
        ingressRouteEndpoints sc (pre ++ r :: post) = ingressRouteEndpoints sc (pre ++ post)) ∧
    (∀ (sc : HTTPProxySource) (r : HTTPProxy), r.currentStatus ≠ "valid" →
        endpointsFromHTTPProxy sc r = []) ∧
    (∀ (sc : IngressRouteSource) (r : IngressRoute), r.currentStatus ≠ "valid" →
        endpointsFromIngressRoute sc r = []) := by
  refine ⟨?_, ?_, ?_, ?_⟩
  · intro sc pre r post h
    unfold httpProxyEndpoints
    congr 1
    induction pre with
    | nil => simpa using hpGo_skip_invalid sc r post h
    | cons p pre ih =>
      simp only [List.cons_append, httpProxyGo, List.append_eq]
      rw [ih]
  · intro sc pre r post h
    unfold ingressRouteEndpoints
    congr 1
    induction pre with
    | nil => simpa using irGo_skip_invalid sc r post h
    | cons p pre ih =>
      simp only [List.cons_append, ingressRouteGo, List.append_eq]
      rw [ih]
  · intro sc r h
    unfold endpointsFromHTTPProxy
    simp [h]
  · intro sc r h
    unfold endpointsFromIngressRoute
    simp [h]

def w9src : HTTPProxySource :=
  { fqdnTemplate := none, annotSelector := fun _ => true,
    combineFQDNAnnot := false, ignoreHostnameAnnot := false }

def w9hp : HTTPProxy :=
  { ns := "default", name := "w9", annots := [],
    virtualHost := some { fqdn := "example.org" },
    currentStatus := "invalid",
    lbIngress := [{ ip := "1.2.3.4", hostname := "" }] }

/-- Witness for C9: a concrete invalid HTTPProxy is dropped from a
singleton pass. -/
theorem claim_C9_witness :
    httpProxyEndpoints w9src ([] ++ w9hp :: []) = httpProxyEndpoints w9src ([] ++ []) :=
  claim_C9.1 w9src [] w9hp [] (by decide)

/-! ## Claim C7: provenance labels (corrected) -/

theorem hpGo_labels (sc : HTTPProxySource) (hps : List HTTPProxy) :
    ∀ (l : List Endpoint) (ep : Endpoint),
      httpProxyGo sc hps = Except.ok l → ep ∈ l →
      ∃ hp ∈ hps, lookupAnn ep.labels resourceLabelKey =
        some ("HTTPProxy/" ++ hp.ns ++ "/" ++ hp.name) := by
  induction hps with
  | nil =>
    intro l ep he hm
    simp only [httpProxyGo, Except.ok.injEq] at he
    subst he
    exact absurd hm (List.not_mem_nil ep)
  | cons hp rest ih =>
    intro l ep he hm
    simp only [httpProxyGo] at he
    by_cases h1 : sc.annotSelector hp.annots = true
    · by_cases h2 : controllerMismatch hp.annots = true
      · simp only [h1, h2] at he
        simp at he
        obtain ⟨hp', hm', hl⟩ := ih l ep he hm
        exact ⟨hp', List.mem_cons_of_mem hp hm', hl⟩
      · by_cases h3 : hp.currentStatus = "valid"
        · simp [h1, h2, h3] at he
          split at he
          · simp at he
          · rename_i eps heq
            by_cases h4 : eps = []
            · rw [if_pos h4] at he
              obtain ⟨hp', hm', hl⟩ := ih l ep he hm
              exact ⟨hp', List.mem_cons_of_mem hp hm', hl⟩
            · rw [if_neg h4] at he
              split at he
              · simp at he
              · rename_i restEps heq2
                simp only [Except.ok.injEq] at he
                subst he
                rcases List.mem_append.mp hm with hml | hmr
                · unfold setResourceLabelHP at hml
                  rcases List.mem_map.mp hml with ⟨ep0, _, rfl⟩
                  exact ⟨hp, List.mem_cons_self hp rest,
                    lookupAnn_setAnn_self ep0.labels resourceLabelKey _⟩
                · obtain ⟨hp', hm', hl⟩ := ih restEps ep heq2 hmr
                  exact ⟨hp', List.mem_cons_of_mem hp hm', hl⟩
        · simp [h1, h2, h3] at he
          obtain ⟨hp', hm', hl⟩ := ih l ep he hm
          exact ⟨hp', List.mem_cons_of_mem hp hm', hl⟩
    · simp [h1] at he
      obtain ⟨hp', hm', hl⟩ := ih l ep he hm
      exact ⟨hp', List.mem_cons_of_mem hp hm', hl⟩

theorem irGo_labels (sc : IngressRouteSource) (rts : List IngressRoute) :
    ∀ (l : List Endpoint) (ep : Endpoint),
      ingressRouteGo sc rts = Except.ok l → ep ∈ l →
      ∃ rt ∈ rts, lookupAnn ep.labels resourceLabelKey =
        some ("ingressroute/" ++ rt.ns ++ "/" ++ rt.name) := by
  induction rts with
  | nil =>
    intro l ep he hm
    simp only [ingressRouteGo, Except.ok.injEq] at he
    subst he
    exact absurd hm (List.not_mem_nil ep)
  | cons rt rest ih =>
    intro l ep he hm
    simp only [ingressRouteGo] at he
    by_cases h1 : sc.annotSelector rt.annots = true
    · by_cases h2 : controllerMismatch rt.annots = true
      · simp only [h1, h2] at he
        simp at he
        obtain ⟨rt', hm', hl⟩ := ih l ep he hm
        exact ⟨rt', List.mem_cons_of_mem rt hm', hl⟩
      · by_cases h3 : rt.currentStatus = "valid"
        · simp [h1, h2, h3] at he
          split at he
          · simp at he
          · rename_i eps heq
            by_cases h4 : eps = []
            · rw [if_pos h4] at he
              obtain ⟨rt', hm', hl⟩ := ih l ep he hm
              exact ⟨rt', List.mem_cons_of_mem rt hm', hl⟩
            · rw [if_neg h4] at he
              split at he
              · simp at he
              · rename_i restEps heq2
                simp only [Except.ok.injEq] at he
                subst he
                rcases List.mem_append.mp hm with hml | hmr
                · unfold setResourceLabelIR at hml
                  rcases List.mem_map.mp hml with ⟨ep0, _, rfl⟩
                  exact ⟨rt, List.mem_cons_self rt rest,
                    lookupAnn_setAnn_self ep0.labels resourceLabelKey _⟩
                · obtain ⟨rt', hm', hl⟩ := ih restEps ep heq2 hmr
                  exact ⟨rt', List.mem_cons_of_mem rt hm', hl⟩
        · simp [h1, h2, h3] at he
          obtain ⟨rt', hm', hl⟩ := ih l ep he hm
          exact ⟨rt', List.mem_cons_of_mem rt hm', hl⟩
    · simp [h1] at he
      obtain ⟨rt', hm', hl⟩ := ih l ep he hm
      exact ⟨rt', List.mem_cons_of_mem rt hm', hl⟩

theorem kong_labeled_lookup (ti : TCPIngress) (eps : List Endpoint)
    (ep : Endpoint)
    (hm : ep ∈ setDualstackLabelTI ti (setResourceLabelTI ti eps)) :
    lookupAnn ep.labels resourceLabelKey =
      some ("tcpingress/" ++ ti.ns ++ "/" ++ ti.name) := by
  have hne : resourceLabelKey ≠ dualstackLabelKey := by decide
  unfold setDualstackLabelTI at hm
  by_cases hd : lookupAnn ti.annots albDualstackAnnotKey = some albDualstackAnnotValue
  · rw [if_pos hd] at hm
    rcases List.mem_map.mp hm with ⟨ep1, hm1, rfl⟩
    unfold setResourceLabelTI at hm1
    rcases List.mem_map.mp hm1 with ⟨ep0, _, rfl⟩
    rw [lookupAnn_setAnn_ne _ _ _ _ hne]
    exact lookupAnn_setAnn_self ep0.labels resourceLabelKey _
  · rw [if_neg hd] at hm
    unfold setResourceLabelTI at hm
    rcases List.mem_map.mp hm with ⟨ep0, _, rfl⟩
    exact lookupAnn_setAnn_self ep0.labels resourceLabelKey _

theorem kongGo_labels (sc : KongSource) (tis : List TCPIngress) :
    ∀ (l : List Endpoint) (ep : Endpoint),
      kongGo sc tis = Except.ok l → ep ∈ l →
      ∃ ti ∈ tis, lookupAnn ep.labels resourceLabelKey =
        some ("tcpingress/" ++ ti.ns ++ "/" ++ ti.name) := by
  induction tis with
  | nil =>
    intro l ep he hm
    simp only [kongGo, Except.ok.injEq] at he
    subst he
    exact absurd hm (List.not_mem_nil ep)
  | cons ti rest ih =>
    intro l ep he hm
    simp only [kongGo] at he
    by_cases h1 : sc.annotSelector ti.annots = true
    · simp [h1] at he
      split at he
      · simp at he
      · rename_i eps heq
        by_cases h4 : eps = []
        · rw [if_pos h4] at he
          obtain ⟨ti', hm', hl⟩ := ih l ep he hm
          exact ⟨ti', List.mem_cons_of_mem ti hm', hl⟩
        · rw [if_neg h4] at he
          split at he
          · simp at he
          · rename_i restEps heq2
            simp only [Except.ok.injEq] at he
            subst he
            rcases List.mem_append.mp hm with hml | hmr
            · exact ⟨ti, List.mem_cons_self ti rest,
                kong_labeled_lookup ti eps ep hml⟩
            · obtain ⟨ti', hm', hl⟩ := ih restEps ep heq2 hmr
              exact ⟨ti', List.mem_cons_of_mem ti hm', hl⟩
    · simp [h1] at he
      obtain ⟨ti', hm', hl⟩ := ih l ep he hm
      exact ⟨ti', List.mem_cons_of_mem ti hm', hl⟩

def c7src : AmbassadorSource :=
  { svcGet := fun _ _ =>
      some { svcType := "LoadBalancer",
             lbIngress := [{ ip := "1.2.3.4", hostname := "" }] } }

def c7host : AmbHost :=
  { ns := "default", name := "h7",
    annots := [(ambHostAnnot, "svc1")],
    spec? := some { hostname := "app.example.com" } }

def c7ep : Endpoint :=
  { dnsName := "app.example.com", targets := ["1.2.3.4"], recordType := "A",
    recordTTL := 0, labels := [] }

/-- C7 counterexample: the Ambassador pass attaches no provenance
label: its endpoints carry an empty label map, with nothing under the
resource label key. -/
theorem claim_C7_cx :
    ambEndpoints c7src [c7host] = Except.ok [c7ep] ∧
    lookupAnn c7ep.labels resourceLabelKey = none :=
  ⟨rfl, rfl⟩

/-- C7 (amended): every endpoint returned by the HTTPProxy,
IngressRoute and Kong TCPIngress passes carries a provenance label
under the resource label key of the form kind/namespace/name of one of
the processed resources; the Ambassador and Gloo passes attach no such
label. -/
theorem claim_C7 :
    (∀ (sc : HTTPProxySource) (hps : List HTTPProxy) (l : List Endpoint)
        (ep : Endpoint), httpProxyEndpoints sc hps = Except.ok l → ep ∈ l →
        ∃ hp ∈ hps, lookupAnn ep.labels resourceLabelKey =
          some ("HTTPProxy/" ++ hp.ns ++ "/" ++ hp.name)) ∧
    (∀ (sc : IngressRouteSource) (rts : List IngressRoute) (l : List Endpoint)
        (ep : Endpoint), ingressRouteEndpoints sc rts = Except.ok l → ep ∈ l →
        ∃ rt ∈ rts, lookupAnn ep.labels resourceLabelKey =
          some ("ingressroute/" ++ rt.ns ++ "/" ++ rt.name)) ∧
    (∀ (sc : KongSource) (tis : List TCPIngress) (l : List Endpoint)
        (ep : Endpoint), kongEndpoints sc tis = Except.ok l → ep ∈ l →
        ∃ ti ∈ tis, lookupAnn ep.labels resourceLabelKey =
          some ("tcpingress/" ++ ti.ns ++ "/" ++ ti.name)) := by
  refine ⟨?_, ?_, ?_⟩
  · intro sc hps l ep he hm
    unfold httpProxyEndpoints at he
    cases hg : httpProxyGo sc hps with
    | error e => rw [hg] at he; simp [Except.map] at he
    | ok l0 =>
      rw [hg] at he
      simp only [Except.map, Except.ok.injEq] at he
      subst he
      rcases List.mem_map.mp hm with ⟨ep0, hm0, rfl⟩
      exact hpGo_labels sc hps l0 ep0 hg hm0
  · intro sc rts l ep he hm
    unfold ingressRouteEndpoints at he
    cases hg : ingressRouteGo sc rts with
    | error e => rw [hg] at he; simp [Except.map] at he
    | ok l0 =>
      rw [hg] at he
      simp only [Except.map, Except.ok.injEq] at he
      subst he
      rcases List.mem_map.mp hm with ⟨ep0, hm0, rfl⟩
      exact irGo_labels sc rts l0 ep0 hg hm0
  · intro sc tis l ep he hm
    unfold kongEndpoints at he
    cases hg : kongGo sc tis with
    | error e => rw [hg] at he; simp [Except.map] at he
    | ok l0 =>
      rw [hg] at he
      simp only [Except.map, Except.ok.injEq] at he
      subst he
      rcases List.mem_map.mp hm with ⟨ep0, hm0, rfl⟩
      exact kongGo_labels sc tis l0 ep0 hg hm0

def w7src : HTTPProxySource :=
  { fqdnTemplate := none, annotSelector := fun _ => true,
    combineFQDNAnnot := false, ignoreHostnameAnnot := false }

def w7hp : HTTPProxy :=
  { ns := "default", name := "w7", annots := [],
    virtualHost := some { fqdn := "example.org" },
    currentStatus := "valid",
    lbIngress := [{ ip := "1.2.3.4", hostname := "" }] }

def w7ep : Endpoint :=
  { dnsName := "example.org", targets := ["1.2.3.4"], recordType := "A",
    recordTTL := 0, labels := [(resourceLabelKey, "HTTPProxy/default/w7")] }

/-- Witness for C7: the provenance label of the single endpoint of a
concrete HTTPProxy pass. -/
theorem claim_C7_witness :
    ∃ hp ∈ [w7hp], lookupAnn w7ep.labels resourceLabelKey =
      some ("HTTPProxy/" ++ hp.ns ++ "/" ++ hp.name) :=
  claim_C7.1 w7src [w7hp] [w7ep] w7ep rfl (by simp)

/-! ## Claim C8: hostname-derived output order (corrected) -/

def c8ksrc : KongSource := { annotSelector := fun _ => true }

def c8kti : TCPIngress :=
  { ns := "kong", name := "t8",
    annots := [(hostnameAnnotKey, "d.example.com")],
    rules := [{ host := "e.example.com" }],
    lbIngress := [{ ip := "", hostname := "lb.example.com" }] }

def c8epD : Endpoint :=
  { dnsName := "d.example.com", targets := ["lb.example.com"],
    recordType := "CNAME", recordTTL := 0,
    labels := [(resourceLabelKey, "tcpingress/kong/t8")] }

def c8epE : Endpoint :=
  { dnsName := "e.example.com", targets := ["lb.example.com"],
    recordType := "CNAME", recordTTL := 0,
    labels := [(resourceLabelKey, "tcpingress/kong/t8")] }

/-- C8 counterexample: in the Kong TCPIngress pass, the endpoint
derived from the hostname-override annotation ("d.example.com") comes
before the endpoint derived from the native rule host
("e.example.com"), contradicting the native-first order. -/
theorem claim_C8_cx :
    kongEndpoints c8ksrc [c8kti] = Except.ok [c8epD, c8epE] ∧
    c8epD.dnsName = "d.example.com" ∧ c8epE.dnsName = "e.example.com" ∧
    getHostnamesFromAnnots c8kti.annots = ["d.example.com"] ∧
    c8kti.rules.map TCPIngressRule.host = ["e.example.com"] :=
  ⟨rfl, rfl, rfl, rfl, rfl⟩

def c8src : HTTPProxySource :=
  { fqdnTemplate := some (fun _ => Except.ok "tmpl.com"),
    annotSelector := fun _ => true,
    combineFQDNAnnot := true, ignoreHostnameAnnot := false }

def c8hp : HTTPProxy :=
  { ns := "default", name := "c8",
    annots := [(targetAnnotKey, "1.2.3.4"), (hostnameAnnotKey, "alias.com")],
    virtualHost := some { fqdn := "foo.bar" },
    currentStatus := "valid",
    lbIngress := [] }

def c8ep1 : Endpoint :=
  { dnsName := "foo.bar", targets := ["1.2.3.4"], recordType := "A",
    recordTTL := 0, labels := [(resourceLabelKey, "HTTPProxy/default/c8")] }

def c8ep2 : Endpoint :=
  { dnsName := "alias.com", targets := ["1.2.3.4"], recordType := "A",
    recordTTL := 0, labels := [(resourceLabelKey, "HTTPProxy/default/c8")] }

def c8ep3 : Endpoint :=
  { dnsName := "tmpl.com", targets := ["1.2.3.4"], recordType := "A",
    recordTTL := 0, labels := [(resourceLabelKey, "HTTPProxy/default/c8")] }

/-- C8 (amended): in the Contour HTTPProxy adapter the per-resource
endpoint order is native virtual-host fqdn first, then hostname-override
annotation entries, then (when combine is on or as fallback) the
template's endpoints appended last — witnessed concretely by a pass
yielding "foo.bar", "alias.com", "tmpl.com" in that order; in the Kong
TCPIngress adapter the hostname-override annotation endpoints come
first and the native rule hosts after them. -/
theorem claim_C8 :
    (∀ (sc : HTTPProxySource) (hp : HTTPProxy) (vh : VirtualHost),
        hp.currentStatus = "valid" → hp.virtualHost = some vh →
        sc.ignoreHostnameAnnot = false →
        endpointsFromHTTPProxy sc hp =
          (if vh.fqdn ≠ "" then
            endpointsForHostname vh.fqdn (hpTargets hp) (getTTLFromAnnots hp.annots).1
           else []) ++
          ((getHostnamesFromAnnots hp.annots).map
            (fun h => endpointsForHostname h (hpTargets hp)
              (getTTLFromAnnots hp.annots).1)).flatten) ∧
    (∀ (sc : HTTPProxySource) (hp : HTTPProxy) (tmplEps : List Endpoint),
        sc.combineFQDNAnnot = true →
        hpEndpointsFromTemplate sc hp = Except.ok tmplEps →
        hpResourceEndpoints sc hp =
          Except.ok (endpointsFromHTTPProxy sc hp ++ tmplEps)) ∧
    (∀ (ti : TCPIngress) (targets : List String),
        (getTTLFromAnnots ti.annots).2 = false →
        endpointsFromTCPIngress ti targets =
          Except.ok
            (((getHostnamesFromAnnots ti.annots).map
                (fun h => endpointsForHostname h targets
                  (getTTLFromAnnots ti.annots).1)).flatten ++
             ((ti.rules.map (fun r =>
                if r.host ≠ "" then
                  endpointsForHostname r.host targets (getTTLFromAnnots ti.annots).1
                else [])).flatten))) ∧
    httpProxyEndpoints c8src [c8hp] = Except.ok [c8ep1, c8ep2, c8ep3] := by
  refine ⟨?_, ?_, ?_, rfl⟩
  · intro sc hp vh hst hvh hign
    unfold endpointsFromHTTPProxy
    simp [hst, hvh, hign]
  · intro sc hp tmplEps hc ht
    cases hT : sc.fqdnTemplate with
    | none =>
      unfold hpEndpointsFromTemplate at ht
      rw [hT] at ht
      cases ht
    | some f =>
      unfold hpResourceEndpoints
      rw [ht, hT, hc]
      simp
  · intro ti targets httl
    unfold endpointsFromTCPIngress
    simp [httl]

/-- Witness for C8: the native-then-annotation decomposition evaluated
on the concrete HTTPProxy resource with fqdn "foo.bar" and annotation
alias "alias.com". -/
theorem claim_C8_witness :
    endpointsFromHTTPProxy c8src c8hp =
      (if ("foo.bar" : String) ≠ "" then
        endpointsForHostname "foo.bar" (hpTargets c8hp) (getTTLFromAnnots c8hp.annots).1
       else []) ++
      ((getHostnamesFromAnnots c8hp.annots).map
        (fun h => endpointsForHostname h (hpTargets c8hp)
          (getTTLFromAnnots c8hp.annots).1)).flatten :=
  claim_C8.1 c8src c8hp { fqdn := "foo.bar" } rfl rfl rfl

end ExtDNS
